import Mathlib

/-! Typed values in a `context.Context`: the package `ctxval`.

A shallow embedding of `ctxval.go` (`typeKey`, `Set`, `Get`, `MustGet`) together
with the part of Go that these three functions run on: interface values with
a dynamic type, type assertion, and the `context` package's `Background`,
`WithValue` and `Value`.

A panic is an `Except.error` carrying the panic message; a normal return is
`Except.ok`.
-/

namespace Ctxval

/-! ## Go types and values -/

/-- The payload of a value of a non-interface type: a pointer (nil or an
address), a scalar, or a composite value built from `unit` and `pair`. The
package never inspects a payload. -/
inductive Data where
  | nilPointer
  | pointer (addr : Nat)
  | bool (b : Bool)
  | int (n : Int)
  | string (s : String)
  | unit
  | pair (fst snd : Data)
  deriving DecidableEq, Repr

/-- The shapes of type the package's behaviour distinguishes, by what the zero
value is: the nil interface for an interface type, the nil pointer for a
pointer type, and the zero value `zero` for any other type. -/
inductive Shape where
  | interface
  | pointer
  | other (zero : Data)
  deriving DecidableEq, Repr

/-- A Go type. Two types are identical exactly when their descriptors are equal;
`name` is what `reflect.Type.String` prints, so two distinct types may share
their `name` and differ in `pkgPath`. `methods` is the method set. -/
structure GoType where
  pkgPath : String
  name : String
  shape : Shape
  methods : List String
  deriving DecidableEq, Repr

/-- Whether `T` is an interface type. -/
def GoType.isInterface (T : GoType) : Bool :=
  match T.shape with
  | .interface => true
  | _ => false

/-- Whether `T` is a pointer type. -/
def GoType.isPointer (T : GoType) : Bool :=
  match T.shape with
  | .pointer => true
  | _ => false

/-- A non-interface type `D` implements the interface type `I` when the
method set of `D` has every method of `I`. -/
def implements (D I : GoType) : Bool :=
  !D.isInterface && I.methods.all (fun m => D.methods.contains m)

/-- A non-nil interface value: its dynamic type and the value of that type. -/
structure Dyn where
  type : GoType
  data : Data
  deriving DecidableEq, Repr

/-- A value of the Go type `any`: `none` is the nil interface value. -/
abbrev Any := Option Dyn

/-- The comma-ok test of the type assertion `x.(T)` on a non-nil `x`: for a
non-interface `T` the dynamic type of `x` is identical to `T`, for an interface
`T` the dynamic type of `x` implements `T`. -/
def assertable (T : GoType) (d : Dyn) : Bool :=
  if T.isInterface then implements d.type T else decide (d.type = T)

/-- Whether `x`, a value of type `any`, is the conversion to `any` of a value
of static type `T`. Only an interface type has a value that converts to the nil
`any`. -/
def hasType (T : GoType) : Any → Bool
  | none => T.isInterface
  | some d => assertable T d

/-- A value of static type `T`, held as its conversion to `any` (which loses
nothing: a value of a non-interface type `T` is boxed with dynamic type `T`, a
value of an interface type is nil or already carries its dynamic type). -/
abbrev Value (T : GoType) := { x : Any // hasType T x = true }

/-- The payload of the zero value of a non-interface type. -/
def zeroData (T : GoType) : Data :=
  match T.shape with
  | .interface => Data.nilPointer
  | .pointer => Data.nilPointer
  | .other z => z

/-- The boxed form of `var zero T`: the nil interface for an interface type,
otherwise the type's zero value under dynamic type `T`. -/
def zeroAny (T : GoType) : Any :=
  if T.isInterface then none else some ⟨T, zeroData T⟩

/-- The value of `var zero T`. -/
def zero (T : GoType) : Value T :=
  ⟨zeroAny T, by
    unfold zeroAny
    by_cases h : T.isInterface = true
    · simp [h, hasType]
    · simp [h, hasType, assertable]⟩

/-- The nil value of an interface type `T`. -/
def nilInterface (T : GoType) (h : T.isInterface = true) : Value T := ⟨none, h⟩

/-- The nil pointer of a pointer type `T`. -/
def nilPointer (T : GoType) (h : T.isPointer = true) : Value T :=
  ⟨some ⟨T, Data.nilPointer⟩, by
    have hi : T.isInterface = false := by
      unfold GoType.isPointer at h
      unfold GoType.isInterface
      split at h <;> simp_all
    simp [hasType, assertable, hi]⟩

/-- The statement `typedVal, ok := val.(T)` for a non-nil `val`: on failure
`typedVal` is the zero value of `T`. -/
def typeAssert (T : GoType) (d : Dyn) : Value T × Bool :=
  if h : assertable T d = true then (⟨some d, h⟩, true) else (zero T, false)

/-! ## The `context` package -/

/-- A context key. `typeKey T` is the value `typeKey[T]{}` of this package;
the type `typeKey` is unexported, so another package's key is a value of some
other comparable type. Key comparison `c.key == key` is interface equality:
identical dynamic types and equal values, and all values of the empty struct
`typeKey[T]` are equal. -/
inductive Key where
  | typeKey (T : GoType)
  | foreign (k : Dyn)
  deriving DecidableEq, Repr

/-- A non-nil `context.Context`.
* `emptyCtx` is `context.Background()` (and `context.TODO()`).
* `valueCtx parent key val` is what `context.WithValue` returns.
* `custom value` is any other implementation of the interface, given by what
  its `Value` method returns for each key; a context derived by `WithCancel`,
  `WithDeadline` or `WithTimeout` is the one whose `Value` is its parent's. -/
inductive Context where
  | emptyCtx
  | valueCtx (parent : Context) (key : Key) (val : Any)
  | custom (value : Key → Any)

/-- The method `Value` on a non-nil context: `valueCtx` answers for its own key
and otherwise asks its parent, `emptyCtx` answers nil. -/
def Context.Value : Context → Key → Any
  | .emptyCtx, _ => none
  | .valueCtx parent k val, key => if k = key then val else parent.Value key
  | .custom value, key => value key

/-- Whether the chain of `ctx` holds a binding for `key`. -/
def Context.bound : Context → Key → Bool
  | .emptyCtx, _ => false
  | .valueCtx parent k _, key => decide (k = key) || parent.bound key
  | .custom value, key => (value key).isSome

/-- The message of the run-time panic of a method call on a nil interface. -/
def nilDereference : String :=
  "runtime error: invalid memory address or nil pointer dereference"

/-- The call `ctx.Value(key)` on a variable of type `context.Context`, which
is nil (`none`) or holds a context. -/
def callValue (ctx : Option Context) (key : Key) : Except String Any :=
  match ctx with
  | none => .error nilDereference
  | some c => .ok (c.Value key)

/-- The function `context.WithValue`: it panics on a nil parent. Its other two
panics, on a nil key and on a key that is not comparable, cannot happen for a
`Key`. -/
def WithValue (parent : Option Context) (key : Key) (val : Any) : Except String Context :=
  match parent with
  | none => .error "cannot create context from nil parent"
  | some p => .ok (.valueCtx p key val)

/-! ## The package `ctxval` -/

/-- The key `typeKey[T]{}`. -/
def typeKey (T : GoType) : Key := Key.typeKey T

/-- The function `Set[T]`: `context.WithValue(ctx, typeKey[T]{}, val)`. -/
def Set (T : GoType) (ctx : Option Context) (val : Value T) : Except String Context :=
  WithValue ctx (typeKey T) val.val

/-- The function `Get[T]`. -/
def Get (T : GoType) (ctx : Option Context) : Except String (Value T × Bool) :=
  match callValue ctx (typeKey T) with
  | .error e => .error e
  | .ok none => .ok (zero T, false)
  | .ok (some d) => .ok (typeAssert T d)

/-- The panic message of `MustGet[T]`. -/
def notFoundMessage (T : GoType) : String :=
  "ctxval: value of type " ++ T.name ++ " not found in context"

/-- The function `MustGet[T]`. -/
def MustGet (T : GoType) (ctx : Option Context) : Except String (Value T) :=
  match Get T ctx with
  | .error e => .error e
  | .ok (val, ok) => if !ok then .error (notFoundMessage T) else .ok val

/-! ## The types and values of `ctxval_test.go` -/

/-- The import path of the test package. -/
def testPkg : String := "github.com/kluzzebass/ctxval_test"

/-- The predeclared type `string`. -/
def stringT : GoType := ⟨"", "string", .other (.string ""), []⟩

/-- The predeclared type `int`. -/
def intT : GoType := ⟨"", "int", .other (.int 0), []⟩

/-- The test file's `type testStruct struct { Value string }`. -/
def testStruct : GoType :=
  ⟨testPkg, "ctxval_test.testStruct", .other (.pair (.string "") .unit), []⟩

/-- A second defined type with the declaration of `testStruct` under another
name: `type twinStruct struct { Value string }`. -/
def twinStruct : GoType :=
  ⟨testPkg, "ctxval_test.twinStruct", .other (.pair (.string "") .unit), []⟩

/-- The type `*testStruct`. -/
def testStructPtr : GoType := ⟨"", "*ctxval_test.testStruct", .pointer, []⟩

/-- The test file's `type testInterface interface { DoSomething() }`. -/
def testInterface : GoType :=
  ⟨testPkg, "ctxval_test.testInterface", .interface, ["DoSomething"]⟩

/-- The test file's `type testImpl struct{}` with its method `DoSomething`. -/
def testImpl : GoType := ⟨testPkg, "ctxval_test.testImpl", .other .unit, ["DoSomething"]⟩

/-- The string `"test"`. -/
def testString : Value stringT := ⟨some ⟨stringT, .string "test"⟩, by decide⟩

/-- The string `"other"`. -/
def otherString : Value stringT := ⟨some ⟨stringT, .string "other"⟩, by decide⟩

/-- The value `testStruct{Value: "test"}`. -/
def testStructValue : Value testStruct :=
  ⟨some ⟨testStruct, .pair (.string "test") .unit⟩, by decide⟩

/-- The value `testImpl{}` held in a variable of type `testInterface`. -/
def testImplAsInterface : Value testInterface := ⟨some ⟨testImpl, .unit⟩, by decide⟩

/-- The nil value of `testInterface`. -/
def nilTestInterface : Value testInterface := nilInterface testInterface (by decide)

/-- The context `Set(context.Background(), testInterface(testImpl{}))`. -/
def ctxWithImpl : Context :=
  .valueCtx .emptyCtx (typeKey testInterface) testImplAsInterface.val

/-- The value `testImpl{}` of type `testImpl`. -/
def testImplValue : Value testImpl := ⟨some ⟨testImpl, .unit⟩, by decide⟩

/-- The integer `42`. -/
def fortyTwo : Value intT := ⟨some ⟨intT, .int 42⟩, by decide⟩

/-- A context of another implementation whose `Value` answers every key with
the integer `42`. -/
def answerCtx : Context := .custom (fun _ => fortyTwo.val)

/-! ## Sequences of `Set` calls and conversion to an interface type -/

/-- One call `Set[T](ctx, val)`: its type argument and its value. -/
structure SetCall where
  T : GoType
  val : Value T

/-- The context reached from `ctx` by the calls of `calls`, first to last, each
on the context the call before it returned. -/
def applySets (ctx : Context) : List SetCall → Except String Context
  | [] => .ok ctx
  | s :: rest =>
    match Set s.T (some ctx) s.val with
    | .error e => .error e
    | .ok c => applySets c rest

/-- The value passed to the last call `Set[T]` of `calls`, if there is one. -/
def latest (T : GoType) : List SetCall → Option (Value T)
  | [] => none
  | s :: rest =>
    match latest T rest with
    | some v => some v
    | none => if h : s.T = T then some (h ▸ s.val) else none

/-- The conversion of a value `c` of the non-interface type `C` to the
interface type `I` that `C` implements: the same dynamic type and payload. -/
def toInterface (I C : GoType) (hI : I.isInterface = true) (hC : implements C I = true)
    (c : Value C) : Value I :=
  ⟨c.val, by
    have hn : C.isInterface = false := by
      unfold implements at hC
      cases hc : C.isInterface <;> simp_all
    obtain ⟨x, hx⟩ := c
    cases x with
    | none => simp [hasType, hn] at hx
    | some d =>
      simp only [hasType, assertable, hn, Bool.false_eq_true, if_false,
        decide_eq_true_eq] at hx
      simp [hasType, assertable, hI, hx, hC]⟩

/-! ## Lookup through the context returned by `Set` -/

theorem Set_ok (T : GoType) (ctx : Context) (v : Value T) :
    Set T (some ctx) v = .ok (.valueCtx ctx (typeKey T) v.val) := rfl

theorem typeKey_ne {T U : GoType} (h : T ≠ U) : typeKey T ≠ typeKey U := by
  intro hk
  exact h (Key.typeKey.inj hk)

theorem Value_valueCtx_same (ctx : Context) (k : Key) (x : Any) :
    (Context.valueCtx ctx k x).Value k = x := by
  simp [Context.Value]

theorem Value_valueCtx_other (ctx : Context) {k key : Key} (x : Any) (h : k ≠ key) :
    (Context.valueCtx ctx k x).Value key = ctx.Value key := by
  simp [Context.Value, h]

theorem Value_of_not_bound (ctx : Context) (key : Key) (h : ctx.bound key = false) :
    ctx.Value key = none := by
  induction ctx with
  | emptyCtx => rfl
  | valueCtx parent k val ih =>
    simp only [Context.bound, Bool.or_eq_false_iff, decide_eq_false_iff_not] at h
    rw [Value_valueCtx_other parent val h.1]
    exact ih h.2
  | custom value =>
    simpa [Context.bound, Context.Value] using h

theorem Get_some (T : GoType) (c : Context) :
    Get T (some c) =
      match c.Value (typeKey T) with
      | none => .ok (zero T, false)
      | some d => .ok (typeAssert T d) := by
  unfold Get callValue
  dsimp only
  cases c.Value (typeKey T) <;> rfl

theorem typeAssert_of_val {T : GoType} (v : Value T) {d : Dyn} (h : v.val = some d) :
    typeAssert T d = (v, true) := by
  have hd : assertable T d = true := by
    have := v.property
    rw [h] at this
    exact this
  unfold typeAssert
  rw [dif_pos hd]
  congr 1
  exact Subtype.ext h.symm

theorem Get_valueCtx_of_some (T : GoType) (ctx : Context) (v : Value T) (hv : v.val ≠ none) :
    Get T (some (.valueCtx ctx (typeKey T) v.val)) = .ok (v, true) := by
  obtain ⟨d, hd⟩ := Option.ne_none_iff_exists'.mp hv
  rw [Get_some, Value_valueCtx_same, hd]
  simp only
  rw [typeAssert_of_val v hd]

theorem Get_valueCtx_none (T : GoType) (ctx : Context) :
    Get T (some (.valueCtx ctx (typeKey T) none)) = .ok (zero T, false) := by
  rw [Get_some, Value_valueCtx_same]

theorem Get_valueCtx_other (T U : GoType) (ctx : Context) (x : Any) (h : T ≠ U) :
    Get U (some (.valueCtx ctx (typeKey T) x)) = Get U (some ctx) := by
  rw [Get_some, Get_some, Value_valueCtx_other ctx x (typeKey_ne h)]

theorem zero_eq_nilInterface (T : GoType) (h : T.isInterface = true) :
    zero T = nilInterface T h := by
  apply Subtype.ext
  simp [zero, zeroAny, nilInterface, h]

/-! ## Round trip, nil values, isolation and shadowing -/

/-- C1 (amended): for every context `ctx`, type `T` and value `v` of type `T`
other than the nil interface value, `Set[T](ctx, v)` returns a context on
which `Get[T]` returns `(v, true)`. -/
theorem Get_Set_roundtrip (ctx : Context) (T : GoType) (v : Value T) (hv : v.val ≠ none) :
    ∃ c, Set T (some ctx) v = .ok c ∧ Get T (some c) = .ok (v, true) :=
  ⟨_, Set_ok T ctx v, Get_valueCtx_of_some T ctx v hv⟩

/-- Witness for C1: the test's `Set(ctx, "test")` on the background context. -/
theorem Get_Set_roundtrip_witness :
    testString.val ≠ none ∧
      ∃ c, Set stringT (some .emptyCtx) testString = .ok c ∧
        Get stringT (some c) = .ok (testString, true) :=
  ⟨by decide, Get_Set_roundtrip .emptyCtx stringT testString (by decide)⟩

/-- C1 as stated fails: with `T = testInterface` and `v` the nil interface value
on the background context, `Get[T](Set[T](ctx, v))` is `(nil, false)`, not
`(v, true)`. -/
theorem Get_Set_roundtrip_counterexample :
    (∃ c, Set testInterface (some .emptyCtx) nilTestInterface = .ok c ∧
        Get testInterface (some c) = .ok (nilTestInterface, false)) ∧
      ¬ ∃ c, Set testInterface (some .emptyCtx) nilTestInterface = .ok c ∧
        Get testInterface (some c) = .ok (nilTestInterface, true) := by
  refine ⟨⟨_, rfl, ?_⟩, ?_⟩
  · show Get testInterface (some (.valueCtx .emptyCtx (typeKey testInterface) none)) = _
    rw [Get_valueCtx_none, zero_eq_nilInterface]
    rfl
  · rintro ⟨c, hc, hg⟩
    rw [Set_ok] at hc
    cases hc
    change Get testInterface (some (.valueCtx .emptyCtx (typeKey testInterface) none)) = _ at hg
    rw [Get_valueCtx_none] at hg
    simp at hg

/-- C2: for every interface type `T` and every context `ctx`, `Set[T](ctx, nil)`
returns a context on which `Get[T]` returns `(nil, false)`, whatever was bound
in `ctx` before. -/
theorem Get_Set_nilInterface (ctx : Context) (T : GoType) (hT : T.isInterface = true) :
    ∃ c, Set T (some ctx) (nilInterface T hT) = .ok c ∧
      Get T (some c) = .ok (nilInterface T hT, false) := by
  refine ⟨_, Set_ok T ctx _, ?_⟩
  show Get T (some (.valueCtx ctx (typeKey T) none)) = _
  rw [Get_valueCtx_none, zero_eq_nilInterface T hT]

/-- Witness for C2: the test's `Set[testInterface](ctx, nil)` on a context that
already binds a non-nil `testInterface`. -/
theorem Get_Set_nilInterface_witness :
    testInterface.isInterface = true ∧
      Get testInterface (some ctxWithImpl) = .ok (testImplAsInterface, true) ∧
      ∃ c, Set testInterface (some ctxWithImpl) nilTestInterface = .ok c ∧
        Get testInterface (some c) = .ok (nilTestInterface, false) :=
  ⟨by decide, Get_valueCtx_of_some testInterface .emptyCtx testImplAsInterface (by decide),
    Get_Set_nilInterface ctxWithImpl testInterface (by decide)⟩

/-- C3: for every pointer type `T` and every context `ctx`, storing the nil
pointer of type `T` with `Set[T]` returns a context on which `Get[T]` returns
`(nil, true)`. -/
theorem Get_Set_nilPointer (ctx : Context) (T : GoType) (hT : T.isPointer = true) :
    ∃ c, Set T (some ctx) (nilPointer T hT) = .ok c ∧
      Get T (some c) = .ok (nilPointer T hT, true) :=
  ⟨_, Set_ok T ctx _, Get_valueCtx_of_some T ctx _ (by simp [nilPointer])⟩

/-- Witness for C3: the test's `var nilPtr *testStruct; Set(ctx, nilPtr)`. -/
theorem Get_Set_nilPointer_witness :
    testStructPtr.isPointer = true ∧
      ∃ c, Set testStructPtr (some .emptyCtx) (nilPointer testStructPtr (by decide)) = .ok c ∧
        Get testStructPtr (some c) = .ok (nilPointer testStructPtr (by decide), true) :=
  ⟨by decide, Get_Set_nilPointer .emptyCtx testStructPtr (by decide)⟩

/-- C4: for every context `ctx`, distinct types `T` and `U` and value `v` of
type `T`, `Get[U]` on the context returned by `Set[T](ctx, v)` equals
`Get[U](ctx)`, and it is `(zero value of U, false)` when `ctx` holds no binding
for `U`. -/
theorem Get_Set_other (ctx : Context) (T U : GoType) (v : Value T) (h : T ≠ U) :
    ∃ c, Set T (some ctx) v = .ok c ∧ Get U (some c) = Get U (some ctx) ∧
      (ctx.bound (typeKey U) = false → Get U (some c) = .ok (zero U, false)) := by
  refine ⟨_, Set_ok T ctx v, Get_valueCtx_other T U ctx v.val h, fun hb => ?_⟩
  rw [Get_valueCtx_other T U ctx v.val h, Get_some, Value_of_not_bound ctx _ hb]

/-- Witness for C4: `Set(ctx, testStruct{Value: "test"})` followed by `Get` of a
distinct struct type with the same fields. -/
theorem Get_Set_other_witness :
    testStruct ≠ twinStruct ∧ testStruct.shape = twinStruct.shape ∧
      ∃ c, Set testStruct (some .emptyCtx) testStructValue = .ok c ∧
        Get twinStruct (some c) = Get twinStruct (some .emptyCtx) ∧
        (Context.emptyCtx.bound (typeKey twinStruct) = false →
          Get twinStruct (some c) = .ok (zero twinStruct, false)) :=
  ⟨by decide, rfl, Get_Set_other .emptyCtx testStruct twinStruct testStructValue (by decide)⟩

/-- C5 (amended): for every context `ctx`, type `T` and values `v1`, `v2` of type
`T` neither of which is the nil interface value, with `c1 = Set[T](ctx, v1)` and
`c2 = Set[T](c1, v2)`, `Get[T](c2)` returns `(v2, true)` and `Get[T](c1)`
returns `(v1, true)`. -/
theorem Get_Set_shadow (ctx : Context) (T : GoType) (v1 v2 : Value T)
    (h1 : v1.val ≠ none) (h2 : v2.val ≠ none) :
    ∃ c1 c2, Set T (some ctx) v1 = .ok c1 ∧ Set T (some c1) v2 = .ok c2 ∧
      Get T (some c2) = .ok (v2, true) ∧ Get T (some c1) = .ok (v1, true) :=
  ⟨_, _, Set_ok T ctx v1, Set_ok T _ v2, Get_valueCtx_of_some T _ v2 h2,
    Get_valueCtx_of_some T ctx v1 h1⟩

/-- Witness for C5: two strings set one after the other. -/
theorem Get_Set_shadow_witness :
    testString.val ≠ none ∧ otherString.val ≠ none ∧
      ∃ c1 c2, Set stringT (some .emptyCtx) testString = .ok c1 ∧
        Set stringT (some c1) otherString = .ok c2 ∧
        Get stringT (some c2) = .ok (otherString, true) ∧
        Get stringT (some c1) = .ok (testString, true) :=
  ⟨by decide, by decide,
    Get_Set_shadow .emptyCtx stringT testString otherString (by decide) (by decide)⟩

/-- C5 as stated fails: with `T = testInterface`, `v1 = testImpl{}` and `v2` the
nil interface value on the background context, `Get[T](c2)` is `(nil, false)`,
not `(v2, true)`. -/
theorem Get_Set_shadow_counterexample :
    ¬ ∃ c1 c2, Set testInterface (some .emptyCtx) testImplAsInterface = .ok c1 ∧
        Set testInterface (some c1) nilTestInterface = .ok c2 ∧
        Get testInterface (some c2) = .ok (nilTestInterface, true) ∧
        Get testInterface (some c1) = .ok (testImplAsInterface, true) := by
  rintro ⟨c1, c2, hc1, hc2, hg, -⟩
  rw [Set_ok] at hc1
  cases hc1
  rw [Set_ok] at hc2
  cases hc2
  change Get testInterface (some (.valueCtx _ (typeKey testInterface) none)) = _ at hg
  rw [Get_valueCtx_none] at hg
  simp at hg

/-- C6: for every type `T`, `Get[T]` on the background context returns
`(zero value of T, false)`. -/
theorem Get_emptyCtx (T : GoType) : Get T (some .emptyCtx) = .ok (zero T, false) := rfl

/-! ## `MustGet` -/

theorem MustGet_of_found (T : GoType) (ctx : Option Context) (v : Value T)
    (h : Get T ctx = .ok (v, true)) : MustGet T ctx = .ok v := by
  simp [MustGet, h]

theorem MustGet_of_not_found (T : GoType) (ctx : Option Context) (v : Value T)
    (h : Get T ctx = .ok (v, false)) : MustGet T ctx = .error (notFoundMessage T) := by
  simp [MustGet, h]

theorem Get_some_ok (T : GoType) (c : Context) :
    ∃ v found, Get T (some c) = .ok (v, found) := by
  rw [Get_some]
  cases c.Value (typeKey T) with
  | none => exact ⟨_, _, rfl⟩
  | some d => exact ⟨(typeAssert T d).1, (typeAssert T d).2, rfl⟩

theorem Get_nil (T : GoType) : Get T none = .error nilDereference := rfl

theorem name_infix_notFoundMessage (T : GoType) :
    T.name.data <:+: (notFoundMessage T).data :=
  ⟨"ctxval: value of type ".data, " not found in context".data, by
    simp [notFoundMessage, String.data_append]⟩

/-- C7: for every context `ctx` and type `T`, if `Get[T](ctx)` returns
`(v, true)` then `MustGet[T](ctx)` returns `v` and does not panic. -/
theorem MustGet_success (ctx : Option Context) (T : GoType) (v : Value T)
    (h : Get T ctx = .ok (v, true)) : MustGet T ctx = .ok v :=
  MustGet_of_found T ctx v h

/-- Witness for C7: the test's `MustGet[string]` after `Set(ctx, "test")`. -/
theorem MustGet_success_witness :
    Get stringT (some (.valueCtx .emptyCtx (typeKey stringT) testString.val)) =
        .ok (testString, true) ∧
      MustGet stringT (some (.valueCtx .emptyCtx (typeKey stringT) testString.val)) =
        .ok testString :=
  ⟨Get_valueCtx_of_some stringT .emptyCtx testString (by decide),
    MustGet_success _ stringT testString
      (Get_valueCtx_of_some stringT .emptyCtx testString (by decide))⟩

/-- C8: for every context `ctx` and type `T`, `MustGet[T](ctx)` panics if and
only if `Get[T](ctx)` reports `found = false`, and the panic message is
`"ctxval: value of type "` followed by the name of `T` followed by
`" not found in context"`, which contains the name of `T`. -/
theorem MustGet_failure (ctx : Context) (T : GoType) :
    ((∃ msg, MustGet T (some ctx) = .error msg) ↔
        ∃ v, Get T (some ctx) = .ok (v, false)) ∧
      (∀ msg, MustGet T (some ctx) = .error msg →
        msg = "ctxval: value of type " ++ T.name ++ " not found in context" ∧
          T.name.data <:+: msg.data) := by
  obtain ⟨v, found, hg⟩ := Get_some_ok T ctx
  cases found with
  | false =>
    have hm := MustGet_of_not_found T (some ctx) v hg
    refine ⟨⟨fun _ => ⟨v, hg⟩, fun _ => ⟨_, hm⟩⟩, fun msg h => ?_⟩
    rw [hm] at h
    cases h
    exact ⟨rfl, name_infix_notFoundMessage T⟩
  | true =>
    have hm := MustGet_of_found T (some ctx) v hg
    refine ⟨⟨fun ⟨msg, h⟩ => ?_, fun ⟨w, h⟩ => ?_⟩, fun msg h => ?_⟩
    · rw [hm] at h
      cases h
    · rw [hg] at h
      simp at h
    · rw [hm] at h
      cases h

/-- C9: for every interface type `T` and every context `ctx`,
`MustGet[T]` panics on the context returned by `Set[T](ctx, nil)`. -/
theorem MustGet_Set_nilInterface (ctx : Context) (T : GoType) (hT : T.isInterface = true) :
    ∃ c, Set T (some ctx) (nilInterface T hT) = .ok c ∧
      MustGet T (some c) =
        .error ("ctxval: value of type " ++ T.name ++ " not found in context") := by
  refine ⟨_, Set_ok T ctx _, ?_⟩
  apply MustGet_of_not_found T _ (zero T)
  show Get T (some (.valueCtx ctx (typeKey T) none)) = _
  rw [Get_valueCtx_none]

/-- Witness for C9: `MustGet[testInterface]` after `Set[testInterface](ctx, nil)`
on a context that already binds a non-nil `testInterface`. -/
theorem MustGet_Set_nilInterface_witness :
    testInterface.isInterface = true ∧
      ∃ c, Set testInterface (some ctxWithImpl) nilTestInterface = .ok c ∧
        MustGet testInterface (some c) =
          .error "ctxval: value of type ctxval_test.testInterface not found in context" :=
  ⟨by decide, MustGet_Set_nilInterface ctxWithImpl testInterface (by decide)⟩

/-- C10 (amended): for every non-nil context passed to it and every type `T`,
`Get[T]` returns a `(value, found)` pair: it does not panic. -/
theorem Get_total (ctx : Option Context) (T : GoType) (h : ctx ≠ none) :
    ∃ v found, Get T ctx = .ok (v, found) := by
  cases ctx with
  | none => exact absurd rfl h
  | some c => exact Get_some_ok T c

/-- Witness for C10: `Get[string]` on the background context. -/
theorem Get_total_witness :
    some Context.emptyCtx ≠ none ∧
      ∃ v found, Get stringT (some .emptyCtx) = .ok (v, found) :=
  ⟨by simp, Get_total (some .emptyCtx) stringT (by simp)⟩

/-- C10 as stated fails: on the nil `context.Context`, which the signature of
`Get` accepts, the call `ctx.Value` panics with a nil dereference, so
`Get[string]` returns no `(value, found)` pair. -/
theorem Get_total_counterexample :
    Get stringT none = .error nilDereference ∧
      ¬ ∃ v found, Get stringT none = .ok (v, found) := by
  refine ⟨rfl, ?_⟩
  rintro ⟨v, found, h⟩
  rw [Get_nil] at h
  cases h

/-! ## Totality of `Set` and identity of keys -/

theorem Set_nil (T : GoType) (v : Value T) :
    Set T none v = .error "cannot create context from nil parent" := rfl

/-- C11 (amended): for every non-nil parent context, the background context
included, every type `T` and every value `v` of type `T`, `Set[T](parent, v)`
returns a context, the parent extended by one binding, and does not panic. -/
theorem Set_total (parent : Option Context) (T : GoType) (v : Value T)
    (h : parent ≠ none) :
    ∃ p c, parent = some p ∧ Set T parent v = .ok c ∧
      c = .valueCtx p (typeKey T) v.val := by
  cases parent with
  | none => exact absurd rfl h
  | some p => exact ⟨p, _, rfl, rfl, rfl⟩

/-- Witness for C11: the test's `Set(ctx, "test")` on the background context. -/
theorem Set_total_witness :
    some Context.emptyCtx ≠ none ∧
      ∃ p c, some Context.emptyCtx = some p ∧
        Set stringT (some .emptyCtx) testString = .ok c ∧
        c = .valueCtx p (typeKey stringT) testString.val :=
  ⟨by simp, Set_total (some .emptyCtx) stringT testString (by simp)⟩

/-- C11 as stated fails: on the nil `context.Context` as parent, which the
signature of `Set` accepts, `context.WithValue` panics at its guard, so
`Set(nil, "test")` returns no context. -/
theorem Set_total_counterexample :
    Set stringT none testString = .error "cannot create context from nil parent" ∧
      ¬ ∃ c, Set stringT none testString = .ok c := by
  refine ⟨rfl, ?_⟩
  rintro ⟨c, h⟩
  rw [Set_nil] at h
  cases h

/-- C12: for all types `T` and `U`, the keys `typeKey[T]{}` and `typeKey[U]{}`
are equal if and only if `T` and `U` are the same type. -/
theorem typeKey_eq_iff (T U : GoType) : typeKey T = typeKey U ↔ T = U :=
  ⟨fun h => Key.typeKey.inj h, fun h => by rw [h]⟩

/-! ## Lookup after a sequence of `Set` calls -/

theorem Get_valueCtx_val (T : GoType) (ctx : Context) (v : Value T) :
    Get T (some (.valueCtx ctx (typeKey T) v.val)) = .ok (v, v.val.isSome) := by
  cases hv : v.val with
  | none =>
    have hT : T.isInterface = true := by
      have := v.property
      rw [hv] at this
      exact this
    have hz : zero T = v := by
      apply Subtype.ext
      simp [zero, zeroAny, hT, hv]
    rw [← hv, Get_some, Value_valueCtx_same, hv]
    simp [hz]
  | some d =>
    have hne : v.val ≠ none := by simp [hv]
    rw [← hv, Get_valueCtx_of_some T ctx v hne, hv]
    rfl

theorem applySets_cons (ctx : Context) (s : SetCall) (rest : List SetCall) :
    applySets ctx (s :: rest) = applySets (.valueCtx ctx (typeKey s.T) s.val.val) rest := rfl

theorem applySets_ok (calls : List SetCall) (ctx : Context) :
    ∃ c, applySets ctx calls = .ok c := by
  induction calls generalizing ctx with
  | nil => exact ⟨ctx, rfl⟩
  | cons s rest ih =>
    rw [applySets_cons]
    exact ih _

theorem Get_applySets (T : GoType) (calls : List SetCall) (ctx c : Context)
    (h : applySets ctx calls = .ok c) :
    Get T (some c) =
      match latest T calls with
      | some v => .ok (v, v.val.isSome)
      | none => Get T (some ctx) := by
  induction calls generalizing ctx with
  | nil =>
    simp only [applySets, Except.ok.injEq] at h
    simp [latest, h]
  | cons s rest ih =>
    rw [applySets_cons] at h
    rw [ih _ h]
    simp only [latest]
    cases latest T rest with
    | some v => rfl
    | none =>
      obtain ⟨S, w⟩ := s
      by_cases hS : S = T
      · subst hS
        simp only [dif_pos]
        exact Get_valueCtx_val S ctx w
      · simp only [dif_neg hS]
        exact Get_valueCtx_other S T ctx w.val hS

theorem Value_applySets_assertable (calls : List SetCall) (ctx c : Context)
    (hctx : ∀ T d, ctx.Value (typeKey T) = some d → assertable T d = true)
    (h : applySets ctx calls = .ok c) :
    ∀ T d, c.Value (typeKey T) = some d → assertable T d = true := by
  induction calls generalizing ctx with
  | nil =>
    simp only [applySets, Except.ok.injEq] at h
    rw [← h]
    exact hctx
  | cons s rest ih =>
    rw [applySets_cons] at h
    refine ih _ ?_ h
    intro T d hd
    by_cases hS : s.T = T
    · subst hS
      rw [Value_valueCtx_same] at hd
      have := s.val.property
      rw [hd] at this
      exact this
    · rw [Value_valueCtx_other ctx _ (typeKey_ne hS)] at hd
      exact hctx T d hd

theorem Get_of_assertable (T : GoType) (c : Context) (d : Dyn)
    (hd : c.Value (typeKey T) = some d) (ha : assertable T d = true) :
    Get T (some c) = .ok (⟨some d, ha⟩, true) := by
  rw [Get_some, hd]
  simp [typeAssert, ha]

theorem Get_of_not_assertable (T : GoType) (c : Context) (d : Dyn)
    (hd : c.Value (typeKey T) = some d) (ha : assertable T d = false) :
    Get T (some c) = .ok (zero T, false) := by
  rw [Get_some, hd]
  simp [typeAssert, ha]

theorem Get_of_none (T : GoType) (c : Context) (hd : c.Value (typeKey T) = none) :
    Get T (some c) = .ok (zero T, false) := by
  rw [Get_some, hd]

/-- C13 (amended): for every context built from the background context by a
finite sequence of `Set` calls and every type `T`, `Get[T]` returns the value
`v` passed to the last `Set[T]` of the sequence, whatever calls of other types
follow it, with `found = true` when `v` is not the nil interface value and
`found = false` when it is; it returns `(zero value of T, false)` when the
sequence has no `Set[T]`. -/
theorem Get_latest (calls : List SetCall) (T : GoType) :
    ∃ c, applySets .emptyCtx calls = .ok c ∧
      Get T (some c) =
        match latest T calls with
        | some v => .ok (v, v.val.isSome)
        | none => .ok (zero T, false) := by
  obtain ⟨c, hc⟩ := applySets_ok calls .emptyCtx
  exact ⟨c, hc, Get_applySets T calls .emptyCtx c hc⟩

/-- C13 as stated fails: after `Set(ctx, testInterface(testImpl{}))`,
`Set[testInterface](ctx, nil)` and `Set(ctx, "test")` on the background context
the last `Set[testInterface]` passed nil, and `Get[testInterface]` returns
`(nil, false)`, not `(nil, true)`. -/
theorem Get_latest_counterexample :
    latest testInterface
        [⟨testInterface, testImplAsInterface⟩, ⟨testInterface, nilTestInterface⟩,
          ⟨stringT, testString⟩] = some nilTestInterface ∧
      ¬ ∃ c, applySets .emptyCtx
          [⟨testInterface, testImplAsInterface⟩, ⟨testInterface, nilTestInterface⟩,
            ⟨stringT, testString⟩] = .ok c ∧
        Get testInterface (some c) = .ok (nilTestInterface, true) := by
  refine ⟨by decide, ?_⟩
  rintro ⟨c, hc, hg⟩
  rw [Get_applySets testInterface _ _ c hc] at hg
  have hl : latest testInterface
      [⟨testInterface, testImplAsInterface⟩, ⟨testInterface, nilTestInterface⟩,
        ⟨stringT, testString⟩] = some nilTestInterface := by decide
  rw [hl] at hg
  simp [nilTestInterface, nilInterface] at hg

/-- C14: for every context built from the background context by `Set` calls
only and every type `T`, a non-nil result of the lookup of `typeKey[T]{}` is
assertable to `T`, so `Get[T]` returns `found = true`. -/
theorem assertion_succeeds_after_Sets (calls : List SetCall) (T : GoType) :
    ∃ c, applySets .emptyCtx calls = .ok c ∧
      ∀ d, c.Value (typeKey T) = some d →
        assertable T d = true ∧ ∃ v, Get T (some c) = .ok (v, true) := by
  obtain ⟨c, hc⟩ := applySets_ok calls .emptyCtx
  refine ⟨c, hc, fun d hd => ?_⟩
  have ha := Value_applySets_assertable calls .emptyCtx c
    (fun T d h => by simp [Context.Value] at h) hc T d hd
  exact ⟨ha, _, Get_of_assertable T c d hd ha⟩

/-! ## Overwriting, static-type keying and commuting `Set` calls -/

theorem Value_valueCtx_twice (ctx : Context) (k key : Key) (x y : Any) :
    (Context.valueCtx (.valueCtx ctx k x) k y).Value key =
      (Context.valueCtx ctx k y).Value key := by
  by_cases h : k = key
  · simp [Context.Value, h]
  · simp [Context.Value, h]

theorem Value_valueCtx_swap (ctx : Context) {k1 k2 : Key} (key : Key) (x y : Any)
    (h : k1 ≠ k2) :
    (Context.valueCtx (.valueCtx ctx k1 x) k2 y).Value key =
      (Context.valueCtx (.valueCtx ctx k2 y) k1 x).Value key := by
  by_cases h1 : k1 = key
  · have h2 : k2 ≠ key := fun h2 => h (h1.trans h2.symm)
    simp [Context.Value, h1, h2]
  · by_cases h2 : k2 = key
    · simp [Context.Value, h1, h2]
    · simp [Context.Value, h1, h2]

theorem Get_congr_Value (V : GoType) (c c' : Context)
    (h : c.Value (typeKey V) = c'.Value (typeKey V)) : Get V (some c) = Get V (some c') := by
  rw [Get_some, Get_some, h]

theorem ne_of_implements {I C : GoType} (hI : I.isInterface = true)
    (hC : implements C I = true) : I ≠ C := by
  intro h
  subst h
  simp [implements, hI] at hC

theorem toInterface_val (I C : GoType) (hI : I.isInterface = true)
    (hC : implements C I = true) (c : Value C) :
    (toInterface I C hI hC c).val = c.val := rfl

theorem val_ne_none_of_implements {I C : GoType} (hC : implements C I = true)
    (c : Value C) : c.val ≠ none := by
  intro h
  have hp := c.property
  rw [h] at hp
  simp only [hasType] at hp
  simp [implements, hp] at hC

/-- C15: for every context `ctx`, type `T`, values `v1`, `v2` of type `T` (nil
interface values included) and every requested type `V`, `Get[V]` on
`Set[T](Set[T](ctx, v1), v2)` equals `Get[V]` on `Set[T](ctx, v2)`. -/
theorem Get_Set_overwrite (ctx : Context) (T V : GoType) (v1 v2 : Value T) :
    ∃ c1 c2 c3, Set T (some ctx) v1 = .ok c1 ∧ Set T (some c1) v2 = .ok c2 ∧
      Set T (some ctx) v2 = .ok c3 ∧ Get V (some c2) = Get V (some c3) :=
  ⟨_, _, _, Set_ok T ctx v1, Set_ok T _ v2, Set_ok T ctx v2,
    Get_congr_Value V _ _ (Value_valueCtx_twice ctx _ _ _ _)⟩

/-- C16: for every interface type `I`, every non-interface type `C` that
implements `I`, every value `c` of type `C` and every context `ctx`, on the
context returned by `Set[I](ctx, c)` the lookup `Get[I]` returns `(c as I, true)`
and `Get[C]` equals `Get[C](ctx)`, which is `(zero value of C, false)` when
`ctx` holds no binding for `C`. -/
theorem Get_Set_static_type (ctx : Context) (I C : GoType) (c : Value C)
    (hI : I.isInterface = true) (hC : implements C I = true) :
    ∃ c', Set I (some ctx) (toInterface I C hI hC c) = .ok c' ∧
      Get I (some c') = .ok (toInterface I C hI hC c, true) ∧
      Get C (some c') = Get C (some ctx) ∧
      (ctx.bound (typeKey C) = false → Get C (some c') = .ok (zero C, false)) := by
  have hne : I ≠ C := ne_of_implements hI hC
  refine ⟨_, Set_ok I ctx _, ?_, Get_valueCtx_other I C ctx _ hne, fun hb => ?_⟩
  · exact Get_valueCtx_of_some I ctx _ (val_ne_none_of_implements hC c)
  · rw [Get_valueCtx_other I C ctx _ hne]
    exact Get_of_none C ctx (Value_of_not_bound ctx _ hb)

/-- Witness for C16: the test's `var ti testInterface = testImpl{}` and
`Set(ctx, ti)` on the background context. -/
theorem Get_Set_static_type_witness :
    testInterface.isInterface = true ∧ implements testImpl testInterface = true ∧
      ∃ c', Set testInterface (some .emptyCtx)
          (toInterface testInterface testImpl (by decide) (by decide) testImplValue) = .ok c' ∧
        Get testInterface (some c') =
          .ok (toInterface testInterface testImpl (by decide) (by decide) testImplValue, true) ∧
        Get testImpl (some c') = Get testImpl (some .emptyCtx) ∧
        (Context.emptyCtx.bound (typeKey testImpl) = false →
          Get testImpl (some c') = .ok (zero testImpl, false)) :=
  ⟨by decide, by decide,
    Get_Set_static_type .emptyCtx testInterface testImpl testImplValue (by decide) (by decide)⟩

/-- C17: for every context `ctx`, distinct types `T` and `U`, values `a` of type
`T` and `b` of type `U`, and every requested type `V`, `Get[V]` on
`Set[U](Set[T](ctx, a), b)` equals `Get[V]` on `Set[T](Set[U](ctx, b), a)`. -/
theorem Get_Set_commute (ctx : Context) (T U V : GoType) (a : Value T) (b : Value U)
    (h : T ≠ U) :
    ∃ c1 c2 d1 d2, Set T (some ctx) a = .ok c1 ∧ Set U (some c1) b = .ok c2 ∧
      Set U (some ctx) b = .ok d1 ∧ Set T (some d1) a = .ok d2 ∧
      Get V (some c2) = Get V (some d2) :=
  ⟨_, _, _, _, Set_ok T ctx a, Set_ok U _ b, Set_ok U ctx b, Set_ok T _ a,
    Get_congr_Value V _ _ (Value_valueCtx_swap ctx _ _ _ (typeKey_ne h))⟩

/-- Witness for C17: a string and a `testStruct` set in either order, read back
as a string. -/
theorem Get_Set_commute_witness :
    stringT ≠ testStruct ∧
      ∃ c1 c2 d1 d2, Set stringT (some .emptyCtx) testString = .ok c1 ∧
        Set testStruct (some c1) testStructValue = .ok c2 ∧
        Set testStruct (some .emptyCtx) testStructValue = .ok d1 ∧
        Set stringT (some d1) testString = .ok d2 ∧
        Get stringT (some c2) = Get stringT (some d2) :=
  ⟨by decide,
    Get_Set_commute .emptyCtx stringT testStruct stringT testString testStructValue
      (by decide)⟩

/-! ## What `found` tells about the lookup -/

/-- C18: for every interface type `T` and every context `ctx`, if `Get[T](ctx)`
returns `(v, true)` then `v` is not the nil interface value; `Get[T](ctx)`
reports `found = false` exactly when the lookup of `typeKey[T]{}` yields nil or a
value not assertable to `T`, and the value it then returns is the zero value of
`T`, the nil interface. -/
theorem Get_found_not_nil (ctx : Context) (T : GoType) (hT : T.isInterface = true) :
    (∀ v, Get T (some ctx) = .ok (v, true) → v.val ≠ none) ∧
      ((∃ v, Get T (some ctx) = .ok (v, false)) ↔
        (ctx.Value (typeKey T) = none ∨
          ∃ d, ctx.Value (typeKey T) = some d ∧ assertable T d = false)) ∧
      (∀ v, Get T (some ctx) = .ok (v, false) → v = zero T ∧ v = nilInterface T hT) := by
  cases hv : ctx.Value (typeKey T) with
  | none =>
    have hg := Get_of_none T ctx hv
    refine ⟨fun v h => ?_, ⟨fun _ => Or.inl rfl, fun _ => ⟨_, hg⟩⟩, fun v h => ?_⟩
    · rw [hg] at h
      simp at h
    · rw [hg] at h
      simp only [Except.ok.injEq, Prod.mk.injEq, and_true] at h
      exact ⟨h.symm, h ▸ zero_eq_nilInterface T hT⟩
  | some d =>
    cases ha : assertable T d with
    | true =>
      have hg := Get_of_assertable T ctx d hv ha
      refine ⟨fun v h => ?_, ⟨fun ⟨v, h⟩ => ?_, fun h => ?_⟩, fun v h => ?_⟩
      · rw [hg] at h
        simp only [Except.ok.injEq, Prod.mk.injEq, and_true] at h
        rw [← h]
        simp
      · rw [hg] at h
        simp at h
      · rcases h with h | ⟨d', hd', ha'⟩
        · simp at h
        · simp only [Option.some.injEq] at hd'
          rw [← hd', ha] at ha'
          simp at ha'
      · rw [hg] at h
        simp at h
    | false =>
      have hg := Get_of_not_assertable T ctx d hv ha
      refine ⟨fun v h => ?_, ⟨fun _ => Or.inr ⟨d, rfl, ha⟩, fun _ => ⟨_, hg⟩⟩, fun v h => ?_⟩
      · rw [hg] at h
        simp at h
      · rw [hg] at h
        simp only [Except.ok.injEq, Prod.mk.injEq, and_true] at h
        exact ⟨h.symm, h ▸ zero_eq_nilInterface T hT⟩

/-- Witness for C18: `Get[testInterface]` on a context of another implementation
that answers every key with an `int`, which `testInterface` does not accept. -/
theorem Get_found_not_nil_witness :
    testInterface.isInterface = true ∧
      answerCtx.Value (typeKey testInterface) = fortyTwo.val ∧
      Get testInterface (some answerCtx) = .ok (nilTestInterface, false) ∧
      ((∀ v, Get testInterface (some answerCtx) = .ok (v, true) → v.val ≠ none) ∧
        ((∃ v, Get testInterface (some answerCtx) = .ok (v, false)) ↔
          (answerCtx.Value (typeKey testInterface) = none ∨
            ∃ d, answerCtx.Value (typeKey testInterface) = some d ∧
              assertable testInterface d = false)) ∧
        (∀ v, Get testInterface (some answerCtx) = .ok (v, false) →
          v = zero testInterface ∧ v = nilInterface testInterface (by decide))) :=
  ⟨by decide, rfl, rfl, Get_found_not_nil answerCtx testInterface (by decide)⟩

end Ctxval
